import Mathlib

/-!
Verification development for the care-coordinator appointment frontend
(`frontend/script.js`).  The JavaScript form controller is shallowly embedded:
DOM element state becomes an explicit `FormState` record, strings become
`List Char`, clock- and calendar-derived quantities (tomorrow's date string,
the five-years-ago cutoff, the weekday of a date string) are supplied by an
`Env` record, and each handler becomes a pure state-transition function
translated line by line from the source.
-/

/-- JS strings are modelled as lists of characters. -/
abbrev Str := List Char

/-- Coerce a Lean string literal to the `Str` model. -/
def str (s : String) : Str := s.data

/-- JS `String.prototype.toLowerCase` (ASCII-relevant part). -/
def lowerStr (s : Str) : Str := s.map Char.toLower

/-- JS `hay.includes(need)`: `need` occurs contiguously inside `hay`. -/
def strContains (hay need : Str) : Bool :=
  match hay with
  | [] => need.isEmpty
  | _ :: t => need.isPrefixOf hay || strContains t need

/-- JS `name.split(',')[0]`: the part of the identifier before the first
comma (the provider's family name in `"Lastname, First"` form). -/
def famName (s : Str) : Str := s.takeWhile (fun c => c ≠ ',')

/-- Calendar date at day granularity.  JS `Date` comparison of valid dates
agrees with lexicographic order on (year, month, day); time-of-day is below
the granularity any claim depends on. -/
structure CalDate where
  year : Int
  month : Nat
  day : Nat
deriving DecidableEq

/-- `a <= b` as JS timestamp comparison, at day granularity. -/
def CalDate.le (a b : CalDate) : Bool :=
  if a.year < b.year then true
  else if b.year < a.year then false
  else if a.month < b.month then true
  else if b.month < a.month then false
  else a.day ≤ b.day

/-- `a < b` as JS timestamp comparison, at day granularity. -/
def CalDate.lt (a b : CalDate) : Bool :=
  if a.year < b.year then true
  else if b.year < a.year then false
  else if a.month < b.month then true
  else if b.month < a.month then false
  else a.day < b.day

inductive Weekday
  | monday | tuesday | wednesday | thursday | friday | saturday | sunday
deriving DecidableEq

def weekdayList : List Weekday :=
  [.monday, .tuesday, .wednesday, .thursday, .friday, .saturday, .sunday]

instance : Fintype Weekday where
  elems := ⟨(weekdayList : List Weekday), by decide⟩
  complete := fun x => by cases x <;> decide

/-- One entry of a split schedule: `{days, hours: {start, end}, location}`. -/
structure Segment where
  days : List Weekday
  hstart : Str
  hend : Str
  location : Str
deriving DecidableEq

/-- A provider's availability record: either a single-segment schedule with
`days`/`hours`/`location`, or a split `schedule` plus the (hard-coded in the
source, via a getter) aggregate day list. -/
inductive Availability
  | simple (days : List Weekday) (hstart hend : Str) (location : Str)
  | split (schedule : List Segment) (aggDays : List Weekday)
deriving DecidableEq

/-- `availability.days`: the aggregate working-day list (for a split
schedule this is the getter's hard-coded list). -/
def Availability.daysOf : Availability → List Weekday
  | .simple days _ _ _ => days
  | .split _ agg => agg

/-- Gregory House's split schedule (source lines 19-30). -/
def houseSchedule : List Segment :=
  [⟨[.monday, .tuesday, .wednesday], str "09:00", str "17:00", str "PPTH Orthopedics"⟩,
   ⟨[.thursday, .friday], str "09:00", str "17:00", str "Jefferson Hospital"⟩]

/-- The hard-coded `days` getter value for House (source lines 32-34). -/
def houseDays : List Weekday :=
  [.monday, .tuesday, .wednesday, .thursday, .friday]

/-- `this.doctorAvailability` (source lines 12-51). -/
def doctorAvailability : List (Str × Availability) :=
  [(str "Grey, Meredith",
     .simple [.monday, .tuesday, .wednesday, .thursday, .friday]
       (str "09:00") (str "17:00") (str "Sloan Primary Care")),
   (str "House, Gregory", .split houseSchedule houseDays),
   (str "Yang, Cristina",
     .simple [.monday, .tuesday, .wednesday, .thursday, .friday]
       (str "09:00") (str "17:00") (str "Seattle Grace Cardiac Surgery")),
   (str "Perry, Chris",
     .simple [.monday, .tuesday, .wednesday]
       (str "09:00") (str "17:00") (str "Sacred Heart Surgical Department")),
   (str "Brennan, Temperance",
     .simple [.tuesday, .wednesday, .thursday]
       (str "10:00") (str "16:00") (str "Jefferson Hospital"))]

/-- JS object/dictionary lookup by string key. -/
def assocLookup {α : Type} (l : List (Str × α)) (k : Str) : Option α :=
  (l.find? (fun e => decide (e.1 = k))).map (fun e => e.2)

/-- `this.doctorAvailability[doctorName]`. -/
def lookupAvail (d : Str) : Option Availability := assocLookup doctorAvailability d

/-- JS `"HH:MM".split(':')`. -/
def splitColon : Str → List Str
  | [] => [[]]
  | c :: rest =>
    match splitColon rest with
    | [] => [[c]]
    | h :: t => if c = ':' then [] :: h :: t else (c :: h) :: t

/-- JS `Number` on a (non-empty) decimal digit string; `Number("") = 0`. -/
def strToNat (s : Str) : Nat :=
  s.foldl (fun acc c => acc * 10 + (c.toNat - 48)) 0

/-- `parseTime` (source lines 736-740): `"09:00"` to minutes since midnight.
Inputs without a colon never occur (JS would produce `NaN`); the model
returns the hour part alone there. -/
def parseTime (s : Str) : Nat :=
  match splitColon s with
  | h :: m :: _ => strToNat h * 60 + strToNat m
  | [h] => strToNat h * 60
  | [] => 0

/-- Decimal digit expansion of a natural number, fuel-indexed so that it
reduces structurally (fuel `n+1` always suffices). -/
def natDigitsFuel : Nat → Nat → Str
  | 0, _ => []
  | fuel + 1, n =>
    if n < 10 then [Char.ofNat (48 + n)]
    else natDigitsFuel fuel (n / 10) ++ [Char.ofNat (48 + n % 10)]

/-- JS `n.toString()` for natural `n`. -/
def natDigits (n : Nat) : Str := natDigitsFuel (n + 1) n

/-- JS `s.padStart(2, '0')`. -/
def padStart2 (s : Str) : Str :=
  if 2 ≤ s.length then s else List.replicate (2 - s.length) '0' ++ s

/-- `formatTime` (source lines 742-747): minutes since midnight to
zero-padded `"HH:MM"`. -/
def formatTime (minutes : Nat) : Str :=
  padStart2 (natDigits (minutes / 60)) ++ ':' :: padStart2 (natDigits (minutes % 60))

/-- The slot loop of `generateTimeSlots` (source lines 715-722), fuel-indexed
for structural reduction; each iteration advances 30 minutes, so fuel
`endT - cur` always suffices. -/
def slotLoopFuel : Nat → Nat → Nat → List Str
  | 0, _, _ => []
  | fuel + 1, cur, endT =>
    if cur < endT then formatTime cur :: slotLoopFuel fuel (cur + 30) endT else []

/-- `while (currentTime < endTime) { slots.push(formatTime(currentTime));
currentTime += 30 }`. -/
def slotLoop (cur endT : Nat) : List Str := slotLoopFuel (endT - cur) cur endT

/-- A `<select>` element: its option list (value, textContent) and current
value.  Assigning a value with no matching option leaves the select
unselected (value `""`), per the HTML select semantics. -/
structure SelectState where
  options : List (Str × Str)
  value : Str
deriving DecidableEq

/-- DOM assignment `select.value = v`. -/
def setSelect (sel : SelectState) (v : Str) : SelectState :=
  if sel.options.any (fun o => decide (o.1 = v)) then { sel with value := v }
  else { sel with value := [] }

/-- One appointment-history entry `{date, provider, status}`. -/
structure HistoryEntry where
  date : CalDate
  provider : Str
  status : Str
deriving DecidableEq

/-- The loaded patient (`this.currentPatient`); only the appointment history
is consulted by the embedded handlers. -/
structure Patient where
  appointments : List HistoryEntry
deriving DecidableEq

/-- Modelled errors surfaced through `showError`. -/
inductive AppError
  | notAvailable (doctor : Str) (day : Weekday)
deriving DecidableEq

/-- The appointment form's DOM state: the eight form fields plus the
enabled/restriction state the handlers mutate. -/
structure FormState where
  firstName : Str
  lastName : Str
  dob : Str
  doctor : SelectState
  appointmentType : SelectState
  location : SelectState
  date : Str
  dateDisabled : Bool
  dateMin : Option Str
  dateMax : Option Str
  dayValidation : Option (List Weekday)
  time : SelectState
  timeDisabled : Bool
  errors : List AppError
deriving DecidableEq

/-- Clock/calendar inputs the handlers read from the environment: the
weekday of a date string (`new Date(s).toLocaleDateString` weekday), the
min/max date strings computed from "now", and the five-years-ago cutoff. -/
structure Env where
  weekdayOf : Str → Weekday
  tomorrow : Str
  threeMonthsOut : Str
  fiveYearsAgo : CalDate

/-- `findMatchingOption` tier predicates (source lines 877-920);
`tier 0` = exact, `tier 1` = case-insensitive exact, `tier 2` = candidate
inside option, `tier 3` = option inside candidate. -/
def tier (k : Nat) (searchValue : Str) (o : Str × Str) : Bool :=
  match k with
  | 0 => decide (o.1 = searchValue) || decide (o.2 = searchValue)
  | 1 => decide (lowerStr o.1 = lowerStr searchValue) ||
         decide (lowerStr o.2 = lowerStr searchValue)
  | 2 => strContains (lowerStr o.1) (lowerStr searchValue) ||
         strContains (lowerStr o.2) (lowerStr searchValue)
  | 3 => strContains (lowerStr searchValue) (lowerStr o.1) ||
         strContains (lowerStr searchValue) (lowerStr o.2)
  | _ => false

/-- `findMatchingOption` (source lines 877-920): four matching tiers tried
in order, each scanning the options in catalog order. -/
def findMatchingOption (options : List (Str × Str)) (searchValue : Str) :
    Option (Str × Str) :=
  match options.find? (tier 0 searchValue) with
  | some m => some m
  | none =>
    match options.find? (tier 1 searchValue) with
    | some m => some m
    | none =>
      match options.find? (tier 2 searchValue) with
      | some m => some m
      | none => options.find? (tier 3 searchValue)

/-- Select update in `updateAppointmentForm` phase 1 (source lines 787-795):
use the fuzzy-matched option's value, else fall back to assigning the raw
value. -/
def fuzzySet (sel : SelectState) (v : Str) : SelectState :=
  match findMatchingOption sel.options v with
  | some m => setSelect sel m.1
  | none => setSelect sel v

/-- `autoSetAppointmentType` (source lines 542-565). -/
def autoSetAppointmentType (patient : Option Patient) (env : Env)
    (doctorName : Str) (st : FormState) : FormState :=
  match patient with
  | none => st
  | some p =>
    let hasSeen := p.appointments.any (fun apt =>
      strContains apt.provider (famName doctorName) &&
      CalDate.le env.fiveYearsAgo apt.date)
    let newType := if hasSeen then str "ESTABLISHED" else str "NEW"
    { st with appointmentType := setSelect st.appointmentType newType }

/-- The duration chosen at booking time (source lines 415-418): default
`"15"`, switched to `"30"` for a NEW appointment. -/
def durationFor (appointmentType : Str) : Nat :=
  if appointmentType = str "NEW" then 30 else 15

/-- `doctorLocationMap` (source lines 578-583). -/
def doctorLocationMap : List (Str × Str) :=
  [(str "Grey, Meredith", str "Sloan Primary Care"),
   (str "Yang, Cristina", str "Seattle Grace Cardiac Surgery"),
   (str "Perry, Chris", str "Sacred Heart Surgical Department"),
   (str "Brennan, Temperance", str "Jefferson Hospital")]

/-- `autoSetLocation` (source lines 567-590). -/
def autoSetLocation (doctorName : Str) (st : FormState) : FormState :=
  if doctorName = str "House, Gregory" then
    { st with location := setSelect st.location [] }
  else
    match assocLookup doctorLocationMap doctorName with
    | some loc => { st with location := setSelect st.location loc }
    | none => st

/-- `setupDateRestrictions` (source lines 592-624): min/max date attributes
and the available-day input validation (help-text rendering omitted as pure
UI). -/
def setupDateRestrictions (env : Env) (doctorName : Str) (st : FormState) :
    FormState :=
  match lookupAvail doctorName with
  | none => st
  | some av =>
    { st with dateMin := some env.tomorrow,
              dateMax := some env.threeMonthsOut,
              dayValidation := some av.daysOf }

/-- `handleDoctorSelection` (source lines 508-540). -/
def handleDoctorSelection (patient : Option Patient) (env : Env)
    (st : FormState) : FormState :=
  if st.doctor.value.isEmpty then
    { st with dateDisabled := true, timeDisabled := true, date := [],
              time := ⟨[([], str "Select time")], []⟩ }
  else
    let d := st.doctor.value
    let s1 := autoSetAppointmentType patient env d st
    let s2 := autoSetLocation d s1
    let s3 := setupDateRestrictions env d s2
    { s3 with dateDisabled := false,
              time := ⟨[([], str "Select a date first")], []⟩,
              timeDisabled := true }

/-- `schedule[0].hours` with a junk value for an empty schedule list (the
catalog's split schedules are non-empty; JS would throw there). -/
def headSegmentHours : List Segment → Str × Str
  | [] => (str "", str "")
  | s :: _ => (s.hstart, s.hend)

/-- The hours selection of `generateTimeSlots` (source lines 701-709).  The
`simple` case under the House branch is unreachable for the actual catalog
(House is split; JS would throw on `availability.schedule`). -/
def hoursFor (doctorName : Str) (av : Availability) (dayName : Weekday) :
    Str × Str :=
  if doctorName = str "House, Gregory" then
    match av with
    | .split sch _ =>
      match sch.find? (fun s => s.days.contains dayName) with
      | some seg => (seg.hstart, seg.hend)
      | none => headSegmentHours sch
    | .simple _ hs he _ => (hs, he)
  else
    match av with
    | .simple _ hs he _ => (hs, he)
    | .split sch _ => headSegmentHours sch

/-- The slot sequence `generateTimeSlots` builds for a doctor and weekday. -/
def slotsFor (doctorName : Str) (av : Availability) (dayName : Weekday) :
    List Str :=
  slotLoop (parseTime (hoursFor doctorName av dayName).1)
           (parseTime (hoursFor doctorName av dayName).2)

/-- `generateTimeSlots` (source lines 692-734): rebuild the time select's
option list (placeholder plus one option per slot, value = label = slot) and
enable it; rebuilding `innerHTML` leaves the select unselected. -/
def generateTimeSlots (doctorName : Str) (dayName : Weekday)
    (st : FormState) : FormState :=
  match lookupAvail doctorName with
  | none => st
  | some av =>
    let slots := slotsFor doctorName av dayName
    { st with
        time := ⟨([], str "Select time") :: slots.map (fun s => (s, s)), []⟩,
        timeDisabled := false }

/-- `handleDateSelection` (source lines 649-690).  The catalog-miss case is
unreachable in the UI (the doctor select only offers catalog names; JS would
throw on `availability.days`). -/
def handleDateSelection (env : Env) (st : FormState) : FormState :=
  if st.doctor.value.isEmpty || st.date.isEmpty then st
  else
    let d := st.doctor.value
    let dayName := env.weekdayOf st.date
    match lookupAvail d with
    | none => st
    | some av =>
      if !(av.daysOf.contains dayName) then
        { st with errors := st.errors ++ [AppError.notAvailable d dayName],
                  date := [], timeDisabled := true }
      else
        let st2 :=
          if d = str "House, Gregory" then
            match av with
            | .split sch _ =>
              match sch.find? (fun s => s.days.contains dayName) with
              | some seg => { st with location := setSelect st.location seg.location }
              | none => st
            | .simple _ _ _ _ => st
          else st
        generateTimeSlots d dayName st2

/-- The eight fields of the appointment form draft. -/
inductive FieldId
  | firstName | lastName | dob | doctor | appointmentType | location | date | time
deriving DecidableEq

/-- Modelled from the spec: the draft's schema.  `updateAppointmentForm`
checks `document.getElementById(field)`; `index.html` is not part of the
sources, so the set of ids for which the lookup succeeds is taken from the
spec's schema — exactly the appointment form's field ids (all eight appear
as `getElementById` arguments in the script). -/
def fieldIdOf (f : Str) : Option FieldId :=
  if f = str "first-name" then some .firstName
  else if f = str "last-name" then some .lastName
  else if f = str "dob" then some .dob
  else if f = str "doctor" then some .doctor
  else if f = str "appointment-type" then some .appointmentType
  else if f = str "appointment-location" then some .location
  else if f = str "appointment-date" then some .date
  else if f = str "appointment-time" then some .time
  else none

/-- The reported anomalies of a batch application: a field id with no
element (source line 836's error log), and a fuzzy-match miss on a closed
option set (source line 794's log). -/
inductive Warning
  | unknownField (field : Str)
  | unmatchedValue (field : Str) (value : Str)
deriving DecidableEq

/-- `updateAppointmentForm` phase 1, effect of one batch entry on the form
(source lines 779-838). -/
def phase1Apply (st : FormState) (id : FieldId) (v : Str) : FormState :=
  match id with
  | .doctor => { st with doctor := fuzzySet st.doctor v }
  | .location => { st with location := fuzzySet st.location v }
  | .date => { st with date := v, dateDisabled := false }
  | .time => { st with time := setSelect st.time v, timeDisabled := false }
  | .appointmentType => { st with appointmentType := setSelect st.appointmentType v }
  | .firstName => { st with firstName := v }
  | .lastName => { st with lastName := v }
  | .dob => { st with dob := v }

/-- Phase-1 warnings of one batch entry (fuzzy-match miss on the two closed
option sets). -/
def phase1Warn (st : FormState) (id : FieldId) (v : Str) : List Warning :=
  match id with
  | .doctor =>
    if (findMatchingOption st.doctor.options v).isNone then
      [.unmatchedValue (str "doctor") v]
    else []
  | .location =>
    if (findMatchingOption st.location.options v).isNone then
      [.unmatchedValue (str "appointment-location") v]
    else []
  | _ => []

/-- Accumulator of the phase-1 `forEach` over the batch. -/
structure BatchAcc where
  st : FormState
  updated : List Str
  warnings : List Warning
  needsDoctor : Bool
  needsDate : Bool
deriving DecidableEq

/-- One iteration of the phase-1 `forEach` (source lines 779-838). -/
def phase1Step (acc : BatchAcc) (e : Str × Str) : BatchAcc :=
  match fieldIdOf e.1 with
  | none => { acc with warnings := acc.warnings ++ [.unknownField e.1] }
  | some id =>
    { st := phase1Apply acc.st id e.2,
      updated := acc.updated ++ [e.1],
      warnings := acc.warnings ++ phase1Warn acc.st id e.2,
      needsDoctor := acc.needsDoctor || decide (id = FieldId.doctor),
      needsDate := acc.needsDate || decide (id = FieldId.date) }

/-- JS `formUpdates[field]` on the batch object. -/
def batchLookup (batch : List (Str × Str)) (f : Str) : Option Str :=
  (batch.find? (fun e => decide (e.1 = f))).map (fun e => e.2)

/-- JS truthiness of `formUpdates[field]` (absent or empty string is falsy). -/
def truthy : Option Str → Bool
  | none => false
  | some v => !v.isEmpty

/-- Result of applying one AI update batch. -/
structure BatchResult where
  st : FormState
  updated : List Str
  warnings : List Warning
deriving DecidableEq

/-- `updateAppointmentForm` (source lines 771-875): phase 1 stores every
batch field, phase 2 triggers the doctor/date handlers, skipping location
inference when the batch set a (truthy) location, and re-assigning the
batch's time after slot regeneration. -/
def updateAppointmentForm (patient : Option Patient) (env : Env)
    (batch : List (Str × Str)) (st0 : FormState) : BatchResult :=
  let acc := batch.foldl phase1Step ⟨st0, [], [], false, false⟩
  let st1 :=
    if acc.needsDoctor && !(truthy (batchLookup batch (str "appointment-location"))) then
      handleDoctorSelection patient env acc.st
    else if acc.needsDoctor then
      if !acc.st.doctor.value.isEmpty then
        let s := setupDateRestrictions env acc.st.doctor.value acc.st
        { s with dateDisabled := false }
      else acc.st
    else acc.st
  let st2 :=
    if acc.needsDate then
      let aiSetTime := batchLookup batch (str "appointment-time")
      let s := handleDateSelection env st1
      match aiSetTime with
      | some t => if !t.isEmpty then { s with time := setSelect s.time t } else s
      | none => s
    else st1
  ⟨st2, acc.updated, acc.warnings⟩

/-- The booking form data read at submission time (source lines 431-442). -/
structure BookingData where
  firstName : Str
  lastName : Str
  dob : Str
  doctor : Str
  appointmentType : Str
  location : Str
  date : Str
  time : Str
deriving DecidableEq

/-- The fixed required-field list (source line 445). -/
def requiredFields : List Str :=
  [str "firstName", str "lastName", str "dob", str "doctor",
   str "appointmentType", str "location", str "date", str "time"]

/-- JS `data[field]` on the form-data object. -/
def BookingData.get (d : BookingData) (f : Str) : Str :=
  if f = str "firstName" then d.firstName
  else if f = str "lastName" then d.lastName
  else if f = str "dob" then d.dob
  else if f = str "doctor" then d.doctor
  else if f = str "appointmentType" then d.appointmentType
  else if f = str "location" then d.location
  else if f = str "date" then d.date
  else if f = str "time" then d.time
  else []

/-- Outcome of submission-time validation. -/
inductive ValidationResult
  | ok
  | missingFields (fields : List Str)
  | pastDate
deriving DecidableEq

/-- `validateAppointmentForm` (source lines 444-464): list the empty
required fields, else reject a date strictly before today at midnight
(`today` is the current date truncated to midnight, `parseDate` the JS
date-string parse, both at day granularity).  The function is pure: the
draft is never modified, failures only report. -/
def validateAppointmentForm (today : CalDate) (parseDate : Str → CalDate)
    (d : BookingData) : ValidationResult :=
  if !(requiredFields.filter (fun f => (d.get f).isEmpty)).isEmpty then
    .missingFields (requiredFields.filter (fun f => (d.get f).isEmpty))
  else if CalDate.lt (parseDate d.date) today then .pastDate
  else .ok

/-- Modelled from the spec: the doctor select's option list (`index.html` is
not in the sources) — one option per catalog provider, value = label, after
an unselected placeholder. -/
def stdDoctorSel : SelectState :=
  ⟨([], str "Select a doctor") :: doctorAvailability.map (fun p => (p.1, p.1)), []⟩

/-- Modelled from the spec: the location select's option list — the five
catalog locations, value = label, after an unselected placeholder. -/
def stdLocationSel : SelectState :=
  ⟨[([], str "Select location"),
    (str "Sloan Primary Care", str "Sloan Primary Care"),
    (str "PPTH Orthopedics", str "PPTH Orthopedics"),
    (str "Jefferson Hospital", str "Jefferson Hospital"),
    (str "Seattle Grace Cardiac Surgery", str "Seattle Grace Cardiac Surgery"),
    (str "Sacred Heart Surgical Department", str "Sacred Heart Surgical Department")],
   []⟩

/-- Modelled from the spec: the appointment-type select's option list. -/
def stdTypeSel : SelectState :=
  ⟨[([], str "Select type"),
    (str "NEW", str "New Patient"),
    (str "ESTABLISHED", str "Established Patient")],
   []⟩

/-- The pristine form state (after load / `clearAppointmentForm`): empty
fields, date and time pickers disabled. -/
def emptyForm : FormState :=
  ⟨[], [], [], stdDoctorSel, stdTypeSel, stdLocationSel, [], true, none, none,
   none, ⟨[([], str "Select time")], []⟩, true, []⟩

/-- A sample environment for concrete witnesses: every date string falls on
a Monday, and the five-year cutoff is 2021-10-12. -/
def mondayEnv : Env :=
  ⟨fun _ => .monday, str "2026-10-13", str "2027-01-12", ⟨2021, 10, 12⟩⟩

/-- A sample patient with a recent visit to Dr. Grey and an old one to
Dr. House. -/
def samplePatient : Patient :=
  ⟨[⟨⟨2024, 9, 17⟩, str "Dr. Meredith Grey", str "completed"⟩,
    ⟨⟨2018, 3, 5⟩, str "Dr. Gregory House", str "completed"⟩]⟩

/-- The slot loop unrolls to one `formatTime` per multiple of the interval
below the bound: `ceil((endT - cur) / 30)` many slots (in `Nat`,
`(endT - cur + 29) / 30`). -/
theorem slotLoopFuel_eq (fuel cur endT : Nat) (h : endT - cur ≤ fuel) :
    slotLoopFuel fuel cur endT =
      (List.range ((endT - cur + 29) / 30)).map (fun i => formatTime (cur + 30 * i)) := by
  induction fuel generalizing cur with
  | zero =>
    have h0 : endT - cur = 0 := by omega
    rw [slotLoopFuel, h0]
    norm_num
  | succ fuel ih =>
    by_cases hlt : cur < endT
    · rw [slotLoopFuel, if_pos hlt, ih (cur + 30) (by omega)]
      have hn : (endT - cur + 29) / 30 = (endT - (cur + 30) + 29) / 30 + 1 := by omega
      rw [hn, List.range_succ_eq_map, List.map_cons, List.map_map]
      congr 1
      apply List.map_congr_left
      intro a _
      simp only [Function.comp_apply]
      congr 1
      omega
    · rw [slotLoopFuel, if_neg hlt]
      have h0 : (endT - cur + 29) / 30 = 0 := by omega
      rw [h0]
      norm_num

theorem slotLoop_eq (cur endT : Nat) :
    slotLoop cur endT =
      (List.range ((endT - cur + 29) / 30)).map (fun i => formatTime (cur + 30 * i)) :=
  slotLoopFuel_eq _ _ _ le_rfl

/-- Claim C4 (amended): for a segment with start/end in minutes of day and
interval 30, the slot loop starts at the start, emits `formatTime` of every
30-minute step while strictly below the end, and the sequence length is
`ceil((end - start) / 30)` in every case — i.e. `floor` when `(end - start)`
is evenly divisible and `floor + 1` otherwise, not `floor` as the claim
stated; `start ≥ end` yields the empty sequence rather than an error. -/
theorem C4_slotLoop_ceil :
    ∀ s e : Nat,
      slotLoop s e = (List.range ((e - s + 29) / 30)).map (fun i => formatTime (s + 30 * i)) ∧
      (slotLoop s e).length = (e - s + 29) / 30 ∧
      (e ≤ s → slotLoop s e = []) := by
  intro s e
  refine ⟨slotLoop_eq s e, ?_, ?_⟩
  · rw [slotLoop_eq, List.length_map, List.length_range]
  · intro hle
    rw [slotLoop_eq]
    have h0 : (e - s + 29) / 30 = 0 := by omega
    rw [h0]
    norm_num

/-- Witness for C4: a 60-minute window yields exactly two slots, and an
empty window (start past end) yields no slots. -/
theorem C4_slotLoop_ceil_witness :
    (slotLoop 600 540 = [] ∧ (slotLoop 540 600).length = 2) :=
  ⟨(C4_slotLoop_ceil 600 540).2.2 (by omega),
   by have h := (C4_slotLoop_ceil 540 600).2.1; simpa using h⟩

/-- Counterexample for C4 as stated: for start 540 and end 585 (not evenly
divisible by 30) the loop emits 2 slots, not `floor((585-540)/30) = 1`. -/
theorem C4_slotLoop_ceil_cex :
    ¬ ((slotLoop 540 585).length = (585 - 540) / 30) := by decide

/-- Claim C8: in the availability catalog, every split schedule's aggregate
day list (the source's hard-coded `days` getter) contains exactly the days
appearing in some segment, and each such day lies in exactly one segment. -/
theorem C8_split_schedule_partition :
    ∀ p ∈ doctorAvailability, ∀ sch agg, p.2 = Availability.split sch agg →
      (∀ w : Weekday, agg.contains w = sch.any (fun s => s.days.contains w)) ∧
      (∀ w : Weekday, agg.contains w = true →
        sch.countP (fun s => s.days.contains w) = 1) := by
  intro p hp sch agg heq
  fin_cases hp <;> simp only at heq
  · exact absurd heq (by simp)
  · injection heq with h1 h2
    subst h1
    subst h2
    exact ⟨by decide, by decide⟩
  · exact absurd heq (by simp)
  · exact absurd heq (by simp)
  · exact absurd heq (by simp)

/-- Witness for C8, at the one split-schedule provider (House): Monday is in
the aggregate day set, appears in some segment, and in exactly one. -/
theorem C8_split_schedule_partition_witness :
    houseDays.contains Weekday.monday =
        houseSchedule.any (fun s => s.days.contains Weekday.monday) ∧
      houseSchedule.countP (fun s => s.days.contains Weekday.monday) = 1 :=
  ⟨(C8_split_schedule_partition (str "House, Gregory", .split houseSchedule houseDays)
      (by decide) houseSchedule houseDays rfl).1 Weekday.monday,
   (C8_split_schedule_partition (str "House, Gregory", .split houseSchedule houseDays)
      (by decide) houseSchedule houseDays rfl).2 Weekday.monday (by decide)⟩

set_option maxHeartbeats 1000000 in
/-- Claim C10: `parseTime` and `formatTime` are mutually inverse — for every
minute-of-day `m ≤ 1439`, `parseTime (formatTime m) = m`; and every
zero-padded `"HH:MM"` string with hours 00..23 and minutes 00..59 (each such
string is exactly `padStart2 (natDigits h) ++ ":" ++ padStart2 (natDigits m)`
for `h ≤ 23`, `m ≤ 59`) is reproduced by `formatTime (parseTime s)`. -/
theorem C10_time_roundtrip :
    (∀ m : Nat, m ≤ 1439 → parseTime (formatTime m) = m) ∧
    (∀ h m : Nat, h ≤ 23 → m ≤ 59 →
      formatTime (parseTime (padStart2 (natDigits h) ++ ':' :: padStart2 (natDigits m)))
        = padStart2 (natDigits h) ++ ':' :: padStart2 (natDigits m)) := by
  constructor
  · intro m hm
    have key : ∀ x : Fin 24, ∀ y : Fin 60,
        parseTime (formatTime (x.1 * 60 + y.1)) = x.1 * 60 + y.1 := by decide
    have hsplit : m = m / 60 * 60 + m % 60 := by omega
    have := key ⟨m / 60, by omega⟩ ⟨m % 60, by omega⟩
    simpa [← hsplit] using this
  · intro h m hh hm
    have key : ∀ x : Fin 24, ∀ y : Fin 60,
        formatTime (parseTime (padStart2 (natDigits x.1) ++ ':' :: padStart2 (natDigits y.1)))
          = padStart2 (natDigits x.1) ++ ':' :: padStart2 (natDigits y.1) := by decide
    exact key ⟨h, by omega⟩ ⟨m, by omega⟩

/-- Witness for C10 at 09:30 = 570 minutes. -/
theorem C10_time_roundtrip_witness :
    parseTime (formatTime 570) = 570 ∧
      formatTime (parseTime (padStart2 (natDigits 9) ++ ':' :: padStart2 (natDigits 30)))
        = padStart2 (natDigits 9) ++ ':' :: padStart2 (natDigits 30) :=
  ⟨C10_time_roundtrip.1 570 (by omega), C10_time_roundtrip.2 9 30 (by omega) (by omega)⟩

/-- `List.find?` returns exactly the first element satisfying the predicate:
the list splits at the hit, with every earlier element failing. -/
theorem find?_split {α : Type} (p : α → Bool) (l : List α) (b : α) :
    l.find? p = some b ↔
      p b = true ∧ ∃ pre post, l = pre ++ b :: post ∧ ∀ x ∈ pre, p x = false := by
  induction l with
  | nil => simp
  | cons hd tl ih =>
    by_cases hp : p hd
    · rw [List.find?_cons_of_pos tl hp]
      simp only [Option.some.injEq]
      constructor
      · rintro rfl
        exact ⟨hp, [], tl, rfl, by simp⟩
      · rintro ⟨hb, pre, post, heq, hpre⟩
        cases pre with
        | nil =>
          simp only [List.nil_append] at heq
          exact (List.cons_eq_cons.mp heq).1
        | cons a as =>
          exfalso
          simp only [List.cons_append] at heq
          obtain ⟨h1, h2⟩ := List.cons_eq_cons.mp heq
          have := hpre a (by simp)
          rw [← h1, hp] at this
          cases this
    · rw [List.find?_cons_of_neg tl hp, ih]
      constructor
      · rintro ⟨hb, pre, post, heq, hpre⟩
        refine ⟨hb, hd :: pre, post, by rw [heq]; simp, ?_⟩
        intro x hx
        rcases List.mem_cons.1 hx with rfl | hx2
        · simpa using hp
        · exact hpre x hx2
      · rintro ⟨hb, pre, post, heq, hpre⟩
        cases pre with
        | nil =>
          exfalso
          simp only [List.nil_append] at heq
          obtain ⟨h1, h2⟩ := List.cons_eq_cons.mp heq
          rw [h1] at hp
          exact hp hb
        | cons a as =>
          simp only [List.cons_append] at heq
          obtain ⟨h1, h2⟩ := List.cons_eq_cons.mp heq
          exact ⟨hb, as, post, h2, fun x hx => hpre x (by simp [hx])⟩

/-- `findMatchingOption` yields nothing exactly when all four tier scans
come up empty. -/
theorem fmo_none_iff (opts : List (Str × Str)) (c : Str) :
    findMatchingOption opts c = none ↔
      ∀ k, k < 4 → opts.find? (tier k c) = none := by
  unfold findMatchingOption
  rcases h0 : opts.find? (tier 0 c) with _ | m0
  · rcases h1 : opts.find? (tier 1 c) with _ | m1
    · rcases h2 : opts.find? (tier 2 c) with _ | m2
      · rcases h3 : opts.find? (tier 3 c) with _ | m3
        · simp only [h3]
          constructor
          · intro _ k hk
            interval_cases k <;> assumption
          · intro _
            trivial
        · simp only [h3]
          constructor
          · intro h
            cases h
          · intro h
            have := h 3 (by omega)
            rw [h3] at this
            cases this
      · constructor
        · intro h
          cases h
        · intro h
          have := h 2 (by omega)
          rw [h2] at this
          cases this
    · constructor
      · intro h
        cases h
      · intro h
        have := h 1 (by omega)
        rw [h1] at this
        cases this
  · constructor
    · intro h
      cases h
    · intro h
      have := h 0 (by omega)
      rw [h0] at this
      cases this

/-- `findMatchingOption` yields an option exactly when some tier `k` is the
first tier with a hit and the option is that tier's first hit. -/
theorem fmo_some_iff (opts : List (Str × Str)) (c : Str) (o : Str × Str) :
    findMatchingOption opts c = some o ↔
      ∃ k, k < 4 ∧ (∀ j, j < k → opts.find? (tier j c) = none) ∧
        opts.find? (tier k c) = some o := by
  unfold findMatchingOption
  rcases h0 : opts.find? (tier 0 c) with _ | m0
  · rcases h1 : opts.find? (tier 1 c) with _ | m1
    · rcases h2 : opts.find? (tier 2 c) with _ | m2
      · rcases h3 : opts.find? (tier 3 c) with _ | m3
        · simp only [h3]
          constructor
          · intro h
            cases h
          · rintro ⟨k, hk, hj, hfind⟩
            exfalso
            interval_cases k <;>
              first
              | (rw [h0] at hfind; cases hfind)
              | (rw [h1] at hfind; cases hfind)
              | (rw [h2] at hfind; cases hfind)
              | (rw [h3] at hfind; cases hfind)
        · simp only [h3]
          constructor
          · intro h
            refine ⟨3, by omega, ?_, by rw [h3]; exact h⟩
            intro j hj
            interval_cases j <;> assumption
          · rintro ⟨k, hk, hj, hfind⟩
            interval_cases k
            · rw [h0] at hfind
              cases hfind
            · rw [h1] at hfind
              cases hfind
            · rw [h2] at hfind
              cases hfind
            · rw [h3] at hfind
              exact hfind
      · constructor
        · intro h
          refine ⟨2, by omega, ?_, by rw [h2]; exact h⟩
          intro j hj
          interval_cases j <;> assumption
        · rintro ⟨k, hk, hj, hfind⟩
          interval_cases k
          · rw [h0] at hfind
            cases hfind
          · rw [h1] at hfind
            cases hfind
          · rw [h2] at hfind
            exact hfind
          · have := hj 2 (by omega)
            rw [h2] at this
            cases this
    · constructor
      · intro h
        refine ⟨1, by omega, ?_, by rw [h1]; exact h⟩
        intro j hj
        interval_cases j
        exact h0
      · rintro ⟨k, hk, hj, hfind⟩
        interval_cases k
        · rw [h0] at hfind
          cases hfind
        · rw [h1] at hfind
          exact hfind
        · have := hj 1 (by omega)
          rw [h1] at this
          cases this
        · have := hj 1 (by omega)
          rw [h1] at this
          cases this
  · constructor
    · intro h
      exact ⟨0, by omega, by omega, by rw [h0]; exact h⟩
    · rintro ⟨k, hk, hj, hfind⟩
      interval_cases k
      · rw [h0] at hfind
        exact hfind
      · have := hj 0 (by omega)
        rw [h0] at this
        cases this
      · have := hj 0 (by omega)
        rw [h0] at this
        cases this
      · have := hj 0 (by omega)
        rw [h0] at this
        cases this

/-- Claim C3: `findMatchingOption` applies the four tiers in order — exact
match on value or label, case-insensitive exact match, candidate inside an
option's value or label, option's value or label inside the candidate — the
first tier with a hit wins, ties within a tier go to the first option in
catalog order, and the result is `none` when no tier matches; in particular
candidate `"jefferson"` matches option `"Jefferson Hospital"` and candidate
`"Mars Clinic"` against that option yields `none`. -/
theorem C3_findMatchingOption_precedence :
    (∀ opts c, (findMatchingOption opts c = none ↔
        ∀ o ∈ opts, ∀ k, k < 4 → tier k c o = false)) ∧
    (∀ opts c o, (findMatchingOption opts c = some o ↔
        ∃ k, k < 4 ∧ (∀ j, j < k → ∀ x ∈ opts, tier j c x = false) ∧
          ∃ pre post, opts = pre ++ o :: post ∧ tier k c o = true ∧
            ∀ x ∈ pre, tier k c x = false)) ∧
    findMatchingOption [(str "Jefferson Hospital", str "Jefferson Hospital")]
        (str "jefferson")
      = some (str "Jefferson Hospital", str "Jefferson Hospital") ∧
    findMatchingOption [(str "Jefferson Hospital", str "Jefferson Hospital")]
        (str "Mars Clinic") = none := by
  refine ⟨?_, ?_, by decide, by decide⟩
  · intro opts c
    rw [fmo_none_iff]
    constructor
    · intro h o ho k hk
      have := List.find?_eq_none.mp (h k hk) o ho
      simpa using this
    · intro h k hk
      exact List.find?_eq_none.mpr (fun o ho => by simp [h o ho k hk])
  · intro opts c o
    rw [fmo_some_iff]
    constructor
    · rintro ⟨k, hk, hj, hfind⟩
      refine ⟨k, hk, ?_, ?_⟩
      · intro j hjk x hx
        have := List.find?_eq_none.mp (hj j hjk) x hx
        simpa using this
      · obtain ⟨hb, pre, post, heq, hpre⟩ := (find?_split _ _ _).mp hfind
        exact ⟨pre, post, heq, hb, hpre⟩
    · rintro ⟨k, hk, hj, pre, post, heq, hb, hpre⟩
      refine ⟨k, hk, ?_, ?_⟩
      · intro j hjk
        exact List.find?_eq_none.mpr (fun x hx => by simp [hj j hjk x hx])
      · exact (find?_split _ _ _).mpr ⟨hb, pre, post, heq, hpre⟩

/-- Witness for C3: concrete consequences of the characterization at the
Jefferson Hospital option list. -/
theorem C3_findMatchingOption_precedence_witness :
    ∃ k, k < 4 ∧
      (∀ j, j < k → ∀ x ∈ [(str "Jefferson Hospital", str "Jefferson Hospital")],
        tier j (str "jefferson") x = false) ∧
      ∃ pre post,
        [(str "Jefferson Hospital", str "Jefferson Hospital")] =
          pre ++ (str "Jefferson Hospital", str "Jefferson Hospital") :: post ∧
        tier k (str "jefferson") (str "Jefferson Hospital", str "Jefferson Hospital") = true ∧
        ∀ x ∈ pre, tier k (str "jefferson") x = false :=
  (C3_findMatchingOption_precedence.2.1
      [(str "Jefferson Hospital", str "Jefferson Hospital")] (str "jefferson")
      (str "Jefferson Hospital", str "Jefferson Hospital")).mp
    C3_findMatchingOption_precedence.2.2.1

/-- Assigning a value that is among a select's option values sticks. -/
theorem setSelect_mem (sel : SelectState) (v : Str)
    (h : v ∈ sel.options.map Prod.fst) : (setSelect sel v).value = v := by
  unfold setSelect
  rw [if_pos]
  · rcases List.mem_map.mp h with ⟨o, ho, rfl⟩
    exact List.any_eq_true.mpr ⟨o, ho, by simp⟩

/-- Claim C5: with a patient loaded, `autoSetAppointmentType` selects
ESTABLISHED exactly when some history entry's provider string contains the
selected provider's family name (the part before the comma) and the entry's
date is on or after the five-years-ago cutoff; otherwise (in particular for
an empty history) it selects NEW.  ESTABLISHED books 15 minutes and NEW 30
(`durationFor`, source lines 415-418). -/
theorem C5_classifier :
    ∀ (p : Patient) (env : Env) (doctorName : Str) (st : FormState),
      str "ESTABLISHED" ∈ st.appointmentType.options.map Prod.fst →
      str "NEW" ∈ st.appointmentType.options.map Prod.fst →
      (((autoSetAppointmentType (some p) env doctorName st).appointmentType.value
          = str "ESTABLISHED") ↔
        ∃ apt ∈ p.appointments,
          strContains apt.provider (famName doctorName) = true ∧
          CalDate.le env.fiveYearsAgo apt.date = true) ∧
      (p.appointments = [] →
        (autoSetAppointmentType (some p) env doctorName st).appointmentType.value
          = str "NEW") ∧
      durationFor (str "ESTABLISHED") = 15 ∧ durationFor (str "NEW") = 30 := by
  intro p env doctorName st hE hN
  have hval : ∀ b : Bool,
      (setSelect st.appointmentType (if b then str "ESTABLISHED" else str "NEW")).value
        = (if b then str "ESTABLISHED" else str "NEW") := by
    intro b
    cases b
    · simpa using setSelect_mem st.appointmentType (str "NEW") hN
    · simpa using setSelect_mem st.appointmentType (str "ESTABLISHED") hE
  refine ⟨?_, ?_, by decide, by decide⟩
  · unfold autoSetAppointmentType
    simp only
    rw [hval]
    by_cases hseen : p.appointments.any (fun apt =>
        strContains apt.provider (famName doctorName) &&
        CalDate.le env.fiveYearsAgo apt.date) = true
    · rw [if_pos hseen]
      simp only [true_iff]
      obtain ⟨apt, hmem, hpred⟩ := List.any_eq_true.mp hseen
      exact ⟨apt, hmem, by simpa [Bool.and_eq_true] using hpred⟩
    · rw [if_neg hseen]
      constructor
      · intro h
        exact absurd h (by decide)
      · rintro ⟨apt, hmem, hc, hd⟩
        exact absurd (List.any_eq_true.mpr ⟨apt, hmem, by simp [hc, hd]⟩) hseen
  · intro hemp
    unfold autoSetAppointmentType
    simp only
    rw [hval, hemp]
    simp

/-- Witness for C5 at the sample patient: selecting Dr. Grey (recent visit
on record) classifies ESTABLISHED; the corresponding durations are 15/30. -/
theorem C5_classifier_witness :
    ((autoSetAppointmentType (some samplePatient) mondayEnv (str "Grey, Meredith")
        emptyForm).appointmentType.value = str "ESTABLISHED" ↔
      ∃ apt ∈ samplePatient.appointments,
        strContains apt.provider (famName (str "Grey, Meredith")) = true ∧
        CalDate.le mondayEnv.fiveYearsAgo apt.date = true) ∧
    durationFor (str "ESTABLISHED") = 15 ∧ durationFor (str "NEW") = 30 :=
  ⟨(C5_classifier samplePatient mondayEnv (str "Grey, Meredith") emptyForm
      (by decide) (by decide)).1,
   (C5_classifier samplePatient mondayEnv (str "Grey, Meredith") emptyForm
      (by decide) (by decide)).2.2⟩

/-- Environment whose date strings all fall on a Saturday. -/
def saturdayEnv : Env :=
  ⟨fun _ => .saturday, str "2026-10-13", str "2027-01-12", ⟨2021, 10, 12⟩⟩

/-- Form with Dr. Brennan selected and a candidate date entered. -/
def brennanSatForm : FormState :=
  { emptyForm with doctor := setSelect stdDoctorSel (str "Brennan, Temperance"),
                   date := str "2026-10-17", dateDisabled := false }

/-- Claim C6: when the selected date's weekday is not among the chosen
provider's working days, the date-selection handler itself rejects: it
reports the not-available error, clears the date field and disables the time
select, and changes nothing else — in particular no time slots are
generated.  (This fires in the `change` handler of the date input, i.e. at
date-setting time, not at submission.) -/
theorem C6_date_rejected_at_setting :
    ∀ (env : Env) (st : FormState) (av : Availability),
      st.doctor.value ≠ [] →
      st.date ≠ [] →
      lookupAvail st.doctor.value = some av →
      av.daysOf.contains (env.weekdayOf st.date) = false →
      handleDateSelection env st =
        { st with
            errors := st.errors ++
              [AppError.notAvailable st.doctor.value (env.weekdayOf st.date)],
            date := [], timeDisabled := true } := by
  intro env st av hd hdt hav hcon
  unfold handleDateSelection
  rw [if_neg]
  · simp only [hav, hcon, Bool.not_false, if_true]
  · simp [List.isEmpty_iff, hd, hdt]

/-- Witness for C6: a Saturday date for Dr. Brennan (Tu–Th only) is cleared
and flagged by the date-selection step itself. -/
theorem C6_date_rejected_at_setting_witness :
    handleDateSelection saturdayEnv brennanSatForm =
      { brennanSatForm with
          errors := brennanSatForm.errors ++
            [AppError.notAvailable brennanSatForm.doctor.value
              (saturdayEnv.weekdayOf brennanSatForm.date)],
          date := [], timeDisabled := true } :=
  C6_date_rejected_at_setting saturdayEnv brennanSatForm
    (.simple [.tuesday, .wednesday, .thursday] (str "10:00") (str "16:00")
      (str "Jefferson Hospital"))
    (by decide) (by decide) (by decide) (by decide)

/-- A complete booking draft used as the C7 witness. -/
def sampleBooking : BookingData :=
  ⟨str "John", str "Doe", str "1975-01-01", str "Grey, Meredith",
   str "ESTABLISHED", str "Sloan Primary Care", str "2026-10-19", str "09:00"⟩

/-- Claim C7: submission validation reports a missing-fields failure listing
exactly the empty members of the fixed required set; when every required
field is present it fails with past-date exactly when the chosen date is
strictly before today at midnight, and otherwise succeeds.  The validator is
a pure function of the draft, so the draft is left unchanged for correction
in every failure case. -/
theorem C7_validation :
    ∀ (today : CalDate) (parseDate : Str → CalDate) (d : BookingData),
      ((∃ f ∈ requiredFields, d.get f = []) →
        (validateAppointmentForm today parseDate d =
          .missingFields (requiredFields.filter (fun f => (d.get f).isEmpty)) ∧
        ∀ f, f ∈ requiredFields.filter (fun f => (d.get f).isEmpty) ↔
          (f ∈ requiredFields ∧ d.get f = []))) ∧
      ((∀ f ∈ requiredFields, d.get f ≠ []) →
        ((validateAppointmentForm today parseDate d = .pastDate ↔
            CalDate.lt (parseDate d.date) today = true) ∧
          (CalDate.lt (parseDate d.date) today = false →
            validateAppointmentForm today parseDate d = .ok))) := by
  intro today parseDate d
  constructor
  · rintro ⟨f, hf, hempty⟩
    have hne : requiredFields.filter (fun f => (d.get f).isEmpty) ≠ [] := by
      intro h0
      have hmem : f ∈ requiredFields.filter (fun f => (d.get f).isEmpty) :=
        List.mem_filter.mpr ⟨hf, by simp [hempty]⟩
      rw [h0] at hmem
      cases hmem
    have hcond : (!(requiredFields.filter (fun f => (d.get f).isEmpty)).isEmpty) = true := by
      cases hmem : requiredFields.filter (fun f => (d.get f).isEmpty) with
      | nil => exact absurd hmem hne
      | cons a as => simp
    constructor
    · unfold validateAppointmentForm
      rw [if_pos hcond]
    · intro g
      rw [List.mem_filter]
      simp [List.isEmpty_iff]
  · intro hall
    have hfil : requiredFields.filter (fun f => (d.get f).isEmpty) = [] := by
      rw [List.filter_eq_nil_iff]
      intro a ha
      simp [List.isEmpty_iff, hall a ha]
    unfold validateAppointmentForm
    rw [hfil]
    constructor
    · by_cases hlt : CalDate.lt (parseDate d.date) today = true
      · rw [if_neg (by simp), if_pos hlt]
        simp [hlt]
      · rw [if_neg (by simp), if_neg hlt]
        simp [hlt]
    · intro hlt
      rw [if_neg (by simp), if_neg (by simp [hlt])]

/-- Witness for C7: a fully filled draft dated after today validates OK. -/
theorem C7_validation_witness :
    validateAppointmentForm ⟨2026, 10, 12⟩ (fun _ => ⟨2026, 10, 19⟩) sampleBooking
      = .ok :=
  ((C7_validation ⟨2026, 10, 12⟩ (fun _ => ⟨2026, 10, 19⟩) sampleBooking).2
      (by decide)).2 (by decide)

/-- `phase1Step` on a schema field. -/
theorem phase1Step_known (acc : BatchAcc) (e : Str × Str) (id : FieldId)
    (h : fieldIdOf e.1 = some id) :
    phase1Step acc e =
      ⟨phase1Apply acc.st id e.2, acc.updated ++ [e.1],
       acc.warnings ++ phase1Warn acc.st id e.2,
       acc.needsDoctor || decide (id = FieldId.doctor),
       acc.needsDate || decide (id = FieldId.date)⟩ := by
  unfold phase1Step
  rw [h]

/-- `phase1Step` on a field outside the schema only records the warning. -/
theorem phase1Step_unknown (acc : BatchAcc) (e : Str × Str)
    (h : fieldIdOf e.1 = none) :
    phase1Step acc e = { acc with warnings := acc.warnings ++ [.unknownField e.1] } := by
  unfold phase1Step
  rw [h]

/-- The canonical provider-plus-location batch of claim C1. -/
def provLocBatch (d l : Str) : List (Str × Str) :=
  [(str "doctor", d), (str "appointment-location", l)]

/-- Claim C1 (amended): a batch that sets the provider together with a
nonempty location leaves the location at the batch's resolved value — the
location-inference rule is skipped — while the date-restriction setup for
the resolved provider still runs (min/max date and the available-day
validation for the provider's aggregate day set), and neither the
appointment type nor the time field is touched.  The claim's general
invariant (no batch field is ever overwritten by a rule triggered by another
field of the same batch) does not hold in the code — see the
counterexample, where an explicitly set appointment type is overwritten by
the type-inference rule run for the batch's doctor field. -/
theorem C1_explicit_location_wins :
    ∀ (patient : Option Patient) (env : Env) (st : FormState) (d l : Str)
      (av : Availability),
      l ≠ [] →
      (fuzzySet st.doctor d).value ≠ [] →
      lookupAvail (fuzzySet st.doctor d).value = some av →
      ((updateAppointmentForm patient env (provLocBatch d l) st).st.location
          = fuzzySet st.location l ∧
       (updateAppointmentForm patient env (provLocBatch d l) st).st.doctor
          = fuzzySet st.doctor d ∧
       (updateAppointmentForm patient env (provLocBatch d l) st).st.dateMin
          = some env.tomorrow ∧
       (updateAppointmentForm patient env (provLocBatch d l) st).st.dateMax
          = some env.threeMonthsOut ∧
       (updateAppointmentForm patient env (provLocBatch d l) st).st.dayValidation
          = some av.daysOf ∧
       (updateAppointmentForm patient env (provLocBatch d l) st).st.dateDisabled
          = false ∧
       (updateAppointmentForm patient env (provLocBatch d l) st).st.appointmentType
          = st.appointmentType ∧
       (updateAppointmentForm patient env (provLocBatch d l) st).st.time
          = st.time) := by
  intro patient env st d l av hl hdv hav
  have hacc : (provLocBatch d l).foldl phase1Step ⟨st, [], [], false, false⟩ =
      ⟨{ st with doctor := fuzzySet st.doctor d,
                 location := fuzzySet st.location l },
       [str "doctor", str "appointment-location"],
       phase1Warn st .doctor d ++
         phase1Warn { st with doctor := fuzzySet st.doctor d } .location l,
       true, false⟩ := rfl
  have hbl : batchLookup (provLocBatch d l) (str "appointment-location") = some l := rfl
  have htr : truthy (some l) = true := by
    unfold truthy
    cases l with
    | nil => exact absurd rfl hl
    | cons a as => simp
  have hdv2 : (fuzzySet st.doctor d).value.isEmpty = false := by
    cases hfe : (fuzzySet st.doctor d).value with
    | nil => exact absurd hfe hdv
    | cons a as => simp
  unfold updateAppointmentForm
  rw [hacc, hbl]
  simp [setupDateRestrictions, htr, hdv2, hav]

/-- Witness for C1: the spec's own scenario — batch
`{doctor: House, location: Jefferson Hospital}` on a fresh form keeps the
resolved location and installs House's combined day set for validation. -/
theorem C1_explicit_location_wins_witness :
    (updateAppointmentForm (some samplePatient) mondayEnv
        (provLocBatch (str "House, Gregory") (str "Jefferson Hospital"))
        emptyForm).st.location
      = fuzzySet emptyForm.location (str "Jefferson Hospital") ∧
    (updateAppointmentForm (some samplePatient) mondayEnv
        (provLocBatch (str "House, Gregory") (str "Jefferson Hospital"))
        emptyForm).st.dayValidation
      = some (Availability.split houseSchedule houseDays).daysOf :=
  ⟨(C1_explicit_location_wins (some samplePatient) mondayEnv emptyForm
      (str "House, Gregory") (str "Jefferson Hospital")
      (.split houseSchedule houseDays) (by decide) (by decide) (by decide)).1,
   (C1_explicit_location_wins (some samplePatient) mondayEnv emptyForm
      (str "House, Gregory") (str "Jefferson Hospital")
      (.split houseSchedule houseDays) (by decide) (by decide) (by decide)).2.2.2.2.1⟩

/-- Counterexample for C1 as stated: batch
`{doctor: "Grey, Meredith", appointment-type: "NEW"}` against a patient with
a recent Grey visit — the explicitly set appointment type is overwritten to
ESTABLISHED by the type-inference rule triggered by the batch's doctor
field, violating the claim's general no-overwrite invariant. -/
theorem C1_explicit_location_wins_cex :
    (updateAppointmentForm (some samplePatient) mondayEnv
        [(str "doctor", str "Grey, Meredith"), (str "appointment-type", str "NEW")]
        emptyForm).st.appointmentType.value = str "ESTABLISHED" ∧
    ¬ ((updateAppointmentForm (some samplePatient) mondayEnv
        [(str "doctor", str "Grey, Meredith"), (str "appointment-type", str "NEW")]
        emptyForm).st.appointmentType.value = str "NEW") := by
  exact ⟨by decide, by decide⟩

/-- Value of assigning `t` to the freshly rebuilt time select: the assigned
time sticks exactly when it is among the regenerated slots, else the select
falls back to unselected. -/
theorem setSelect_rebuilt (lbl : Str) (slots : List Str) (t : Str) (ht : t ≠ []) :
    (setSelect ⟨([], lbl) :: slots.map (fun s => (s, s)), []⟩ t).value
      = if t ∈ slots then t else [] := by
  unfold setSelect
  by_cases hm : t ∈ slots
  · have hc : ((([], lbl) :: slots.map (fun s => (s, s))).any
        (fun o => decide (o.1 = t))) = true :=
      List.any_eq_true.mpr ⟨(t, t), by simp [hm], by simp⟩
    rw [hc, if_pos hm]
    rfl
  · have hc : ((([], lbl) :: slots.map (fun s => (s, s))).any
        (fun o => decide (o.1 = t))) = false := by
      rw [List.any_eq_false]
      intro o ho
      rcases List.mem_cons.1 ho with rfl | ho2
      · have hne : ¬ (([] : Str) = t) := fun h => ht h.symm
        simpa using hne
      · rcases List.mem_map.1 ho2 with ⟨s, hs, rfl⟩
        have hne : ¬ (s = t) := fun h => hm (h ▸ hs)
        simpa using hne
    rw [hc, if_neg hm]
    rfl

/-- The canonical date-plus-time batch of claim C2. -/
def dateTimeBatch (dt t : Str) : List (Str × Str) :=
  [(str "appointment-date", dt), (str "appointment-time", t)]

/-- Claim C2 (amended): a batch that sets the time together with a valid
date change, for an already selected catalog provider, ends with the time
field equal to the requested time exactly when that time is among the
regenerated slots; otherwise the time field ends unselected (empty) — the
requested value is not kept and nothing is marked unmatched (the batch
produces no warnings at all). -/
theorem C2_time_restore :
    ∀ (patient : Option Patient) (env : Env) (st : FormState) (dt t : Str)
      (av : Availability),
      dt ≠ [] → t ≠ [] →
      st.doctor.value ≠ [] →
      lookupAvail st.doctor.value = some av →
      av.daysOf.contains (env.weekdayOf dt) = true →
      ((updateAppointmentForm patient env (dateTimeBatch dt t) st).st.time.value
          = (if t ∈ slotsFor st.doctor.value av (env.weekdayOf dt) then t else []) ∧
        (updateAppointmentForm patient env (dateTimeBatch dt t) st).warnings = []) := by
  intro patient env st dt t av hdt ht hd hav hcon
  have hacc : (dateTimeBatch dt t).foldl phase1Step ⟨st, [], [], false, false⟩ =
      ⟨{ st with date := dt, dateDisabled := false,
                 time := setSelect st.time t, timeDisabled := false },
       [str "appointment-date", str "appointment-time"], [], false, true⟩ := rfl
  have hbt : batchLookup (dateTimeBatch dt t) (str "appointment-time") = some t := rfl
  have hd2 : st.doctor.value.isEmpty = false := by
    cases hfe : st.doctor.value with
    | nil => exact absurd hfe hd
    | cons a as => simp
  have hdt2 : dt.isEmpty = false := by
    cases hfe : dt with
    | nil => exact absurd hfe hdt
    | cons a as => simp
  have ht2 : t.isEmpty = false := by
    cases hfe : t with
    | nil => exact absurd hfe ht
    | cons a as => simp
  unfold updateAppointmentForm
  rw [hacc, hbt]
  unfold handleDateSelection generateTimeSlots
  by_cases hH : st.doctor.value = str "House, Gregory"
  · have hlit : lookupAvail (str "House, Gregory")
        = some (Availability.split houseSchedule houseDays) := by decide
    have hHne : ¬ (str "House, Gregory" = ([] : Str)) := by decide
    cases av with
    | simple days hs he loc =>
      exfalso
      rw [hH] at hav
      rw [hlit] at hav
      simp at hav
    | split sch agg =>
      rw [hH] at hav
      rw [hlit] at hav
      have hinj := hav
      simp only [Option.some.injEq, Availability.split.injEq] at hinj
      obtain ⟨h1, h2⟩ := hinj
      subst h1
      subst h2
      simp only [Availability.daysOf] at hcon
      have hcon2 : env.weekdayOf dt ∈ houseDays := by simpa using hcon
      rcases hfind : houseSchedule.find? (fun s => decide (env.weekdayOf dt ∈ s.days)) with _ | seg
      · simp [Availability.daysOf, hd2, hdt2, ht2, hH, hlit, hHne, hcon2, hfind,
          setSelect_rebuilt _ _ t ht]
      · simp [Availability.daysOf, hd2, hdt2, ht2, hH, hlit, hHne, hcon2, hfind,
          setSelect_rebuilt _ _ t ht]
  · have hcon2 : env.weekdayOf dt ∈ av.daysOf := by simpa using hcon
    simp [hd2, hdt2, ht2, hav, hcon2, hH, setSelect_rebuilt _ _ t ht]

/-- Form with Dr. Grey already selected (date picker enabled). -/
def greyForm : FormState :=
  { emptyForm with doctor := setSelect stdDoctorSel (str "Grey, Meredith"),
                   dateDisabled := false }

/-- Grey's catalog availability record. -/
def greyAvail : Availability :=
  .simple [.monday, .tuesday, .wednesday, .thursday, .friday]
    (str "09:00") (str "17:00") (str "Sloan Primary Care")

/-- Witness for C2: with Dr. Grey selected, the batch
`{date: a Monday, time: "10:00"}` ends with the time select at the value
dictated by membership of "10:00" in the regenerated slots. -/
theorem C2_time_restore_witness :
    (updateAppointmentForm (some samplePatient) mondayEnv
        (dateTimeBatch (str "2026-10-19") (str "10:00")) greyForm).st.time.value
      = (if str "10:00" ∈ slotsFor greyForm.doctor.value greyAvail
            (mondayEnv.weekdayOf (str "2026-10-19"))
         then str "10:00" else []) ∧
    (updateAppointmentForm (some samplePatient) mondayEnv
        (dateTimeBatch (str "2026-10-19") (str "10:00")) greyForm).warnings = [] :=
  C2_time_restore (some samplePatient) mondayEnv greyForm
    (str "2026-10-19") (str "10:00") greyAvail
    (by decide) (by decide) (by decide) (by decide) (by decide)

/-- Counterexample for C2 as stated: with Dr. Grey selected, the batch
`{date: a Monday, time: "23:30"}` regenerates slots 09:00–16:30; the
requested 23:30 is not among them and the time field is silently reset to
unselected, with no unmatched marking anywhere (no warnings at all). -/
theorem C2_time_restore_cex :
    (updateAppointmentForm (some samplePatient) mondayEnv
        (dateTimeBatch (str "2026-10-19") (str "23:30")) greyForm).st.time.value = [] ∧
    (updateAppointmentForm (some samplePatient) mondayEnv
        (dateTimeBatch (str "2026-10-19") (str "23:30")) greyForm).warnings = [] ∧
    ¬ ((updateAppointmentForm (some samplePatient) mondayEnv
        (dateTimeBatch (str "2026-10-19") (str "23:30")) greyForm).st.time.value
        = str "23:30") := by
  exact ⟨by decide, by decide, by decide⟩

/-- The non-warning components of a phase-1 step do not depend on the
warnings accumulated so far. -/
theorem phase1Step_proj (acc1 acc2 : BatchAcc) (e : Str × Str)
    (hst : acc1.st = acc2.st) (hu : acc1.updated = acc2.updated)
    (hd : acc1.needsDoctor = acc2.needsDoctor)
    (ht : acc1.needsDate = acc2.needsDate) :
    (phase1Step acc1 e).st = (phase1Step acc2 e).st ∧
    (phase1Step acc1 e).updated = (phase1Step acc2 e).updated ∧
    (phase1Step acc1 e).needsDoctor = (phase1Step acc2 e).needsDoctor ∧
    (phase1Step acc1 e).needsDate = (phase1Step acc2 e).needsDate := by
  unfold phase1Step
  rcases h : fieldIdOf e.1 with _ | id
  · simp [hst, hu, hd, ht]
  · simp [hst, hu, hd, ht]

/-- Fold-level version of `phase1Step_proj`. -/
theorem foldl_phase1_proj (l : List (Str × Str)) : ∀ acc1 acc2 : BatchAcc,
    acc1.st = acc2.st → acc1.updated = acc2.updated →
    acc1.needsDoctor = acc2.needsDoctor → acc1.needsDate = acc2.needsDate →
    ((l.foldl phase1Step acc1).st = (l.foldl phase1Step acc2).st ∧
     (l.foldl phase1Step acc1).updated = (l.foldl phase1Step acc2).updated ∧
     (l.foldl phase1Step acc1).needsDoctor = (l.foldl phase1Step acc2).needsDoctor ∧
     (l.foldl phase1Step acc1).needsDate = (l.foldl phase1Step acc2).needsDate) := by
  induction l with
  | nil => intro acc1 acc2 h1 h2 h3 h4; exact ⟨h1, h2, h3, h4⟩
  | cons e rest ih =>
    intro acc1 acc2 h1 h2 h3 h4
    obtain ⟨g1, g2, g3, g4⟩ := phase1Step_proj acc1 acc2 e h1 h2 h3 h4
    exact ih _ _ g1 g2 g3 g4

/-- A warning already accumulated survives the rest of the phase-1 fold. -/
theorem foldl_phase1_warn_mem (l : List (Str × Str)) : ∀ (acc : BatchAcc) (w : Warning),
    w ∈ acc.warnings → w ∈ (l.foldl phase1Step acc).warnings := by
  induction l with
  | nil => intro acc w hw; exact hw
  | cons e rest ih =>
    intro acc w hw
    apply ih
    unfold phase1Step
    rcases h : fieldIdOf e.1 with _ | id
    · simp only [h]
      exact List.mem_append_left _ hw
    · simp only [h]
      exact List.mem_append_left _ hw

/-- A batch entry whose key differs from the looked-up key does not affect
the lookup. -/
theorem batchLookup_ignore (pre post : List (Str × Str)) (f v k : Str)
    (hne : ¬ f = k) :
    batchLookup (pre ++ (f, v) :: post) k = batchLookup (pre ++ post) k := by
  unfold batchLookup
  rw [List.find?_append, List.find?_append, List.find?_cons_of_neg post (by simp [hne])]

/-- Claim C9: a batch field outside the draft's schema is reported with the
distinct unknown-field warning and does not abort processing — the
resulting form state and applied-field list are exactly those of the batch
with the unknown field removed. -/
theorem C9_unknown_field_tolerated :
    ∀ (patient : Option Patient) (env : Env) (pre post : List (Str × Str))
      (f v : Str) (st : FormState),
      fieldIdOf f = none →
      ((updateAppointmentForm patient env (pre ++ (f, v) :: post) st).st
          = (updateAppointmentForm patient env (pre ++ post) st).st ∧
       (updateAppointmentForm patient env (pre ++ (f, v) :: post) st).updated
          = (updateAppointmentForm patient env (pre ++ post) st).updated ∧
       Warning.unknownField f ∈
         (updateAppointmentForm patient env (pre ++ (f, v) :: post) st).warnings) := by
  intro patient env pre post f v st hf
  have hfold1 : (pre ++ (f, v) :: post).foldl phase1Step ⟨st, [], [], false, false⟩
      = post.foldl phase1Step
          (phase1Step (pre.foldl phase1Step ⟨st, [], [], false, false⟩) (f, v)) := by
    rw [List.foldl_append, List.foldl_cons]
  have hfold2 : (pre ++ post).foldl phase1Step ⟨st, [], [], false, false⟩
      = post.foldl phase1Step (pre.foldl phase1Step ⟨st, [], [], false, false⟩) := by
    rw [List.foldl_append]
  have hstep : phase1Step (pre.foldl phase1Step ⟨st, [], [], false, false⟩) (f, v)
      = { pre.foldl phase1Step ⟨st, [], [], false, false⟩ with
            warnings := (pre.foldl phase1Step
              ⟨st, [], [], false, false⟩).warnings ++ [.unknownField f] } :=
    phase1Step_unknown _ _ hf
  obtain ⟨p1, p2, p3, p4⟩ := foldl_phase1_proj post
    (phase1Step (pre.foldl phase1Step ⟨st, [], [], false, false⟩) (f, v))
    (pre.foldl phase1Step ⟨st, [], [], false, false⟩)
    (by rw [hstep]) (by rw [hstep]) (by rw [hstep]) (by rw [hstep])
  have hmem : Warning.unknownField f ∈
      (post.foldl phase1Step
        (phase1Step (pre.foldl phase1Step ⟨st, [], [], false, false⟩) (f, v))).warnings := by
    apply foldl_phase1_warn_mem
    rw [hstep]
    simp
  have hbl1 : batchLookup (pre ++ (f, v) :: post) (str "appointment-location")
      = batchLookup (pre ++ post) (str "appointment-location") := by
    apply batchLookup_ignore
    intro h
    rw [h] at hf
    exact absurd hf (by decide)
  have hbl2 : batchLookup (pre ++ (f, v) :: post) (str "appointment-time")
      = batchLookup (pre ++ post) (str "appointment-time") := by
    apply batchLookup_ignore
    intro h
    rw [h] at hf
    exact absurd hf (by decide)
  unfold updateAppointmentForm
  rw [hfold1, hfold2]
  simp only [p1, p2, p3, p4, hbl1, hbl2]
  exact ⟨trivial, trivial, hmem⟩

/-- Witness for C9: the batch `{bogus: x, first-name: John}` warns about the
unknown `bogus` field and still applies the rest exactly as without it. -/
theorem C9_unknown_field_tolerated_witness :
    ((updateAppointmentForm (some samplePatient) mondayEnv
        ([] ++ (str "bogus", str "x") :: [(str "first-name", str "John")])
        emptyForm).st
      = (updateAppointmentForm (some samplePatient) mondayEnv
          ([] ++ [(str "first-name", str "John")]) emptyForm).st ∧
     (updateAppointmentForm (some samplePatient) mondayEnv
        ([] ++ (str "bogus", str "x") :: [(str "first-name", str "John")])
        emptyForm).updated
      = (updateAppointmentForm (some samplePatient) mondayEnv
          ([] ++ [(str "first-name", str "John")]) emptyForm).updated ∧
     Warning.unknownField (str "bogus") ∈
       (updateAppointmentForm (some samplePatient) mondayEnv
          ([] ++ (str "bogus", str "x") :: [(str "first-name", str "John")])
          emptyForm).warnings) :=
  C9_unknown_field_tolerated (some samplePatient) mondayEnv []
    [(str "first-name", str "John")] (str "bogus") (str "x") emptyForm (by decide)
